import Mathlib

/-!
Verification of the `KVInstallationStore` component of slack-cloudflare-workers
(`src/kv-installation-store.ts` and `src/serializable-slack-api-response.ts`),
as a shallow embedding in Lean 4.

Modelling conventions:
- TypeScript optional fields (`x?: string`) become `Option String`; JavaScript
  truthiness of such a field (`x ? ... : ...`) is `jsTruthy` below (`undefined`
  and the empty string are falsy).
- The Cloudflare `KVNamespace` is an external collaborator; it is modelled as an
  association list of keys to values, with the cursor-paginated `list` protocol
  described by the store's documented interface (`list({prefix, cursor?}) ->
  {keys, cursor?, list_complete}`), with an opaque non-empty string cursor.
- Asynchronous fallible calls become `Except`-valued functions; a JavaScript
  `throw` is `Except.error`.
- Two storage granularities are used. For the `find*Installation` claims the
  namespace maps keys to raw strings and `JSON.parse` is modelled by an
  executable JSON parser (`jsParse`). For the `toAuthorize` orchestration the
  namespace maps keys to already-decoded cells (`Except JsErr Installation`):
  a cell that errors models a stored payload whose deserialization throws.
-/

namespace SlackKV

/-- JavaScript truthiness of an optional string: `undefined` and `""` are falsy. -/
def jsTruthy : Option String → Bool
  | some s => s ≠ ""
  | none => false

/-- JavaScript truthiness of an optional boolean: `undefined` and `false` are falsy. -/
def jsTruthyB : Option Bool → Bool
  | some b => b
  | none => false

/-- `InstallationStoreQuery` from slack-edge: the lookup identity shape. -/
structure InstallationStoreQuery where
  isEnterpriseInstall : Option Bool := none
  enterpriseId : Option String := none
  teamId : Option String := none
  userId : Option String := none
deriving DecidableEq, Repr

/-- The `Installation` record: one OAuth grant with bot and user credentials. -/
structure Installation where
  enterprise_id : Option String := none
  team_id : Option String := none
  user_id : Option String := none
  is_enterprise_install : Option Bool := none
  bot_token : Option String := none
  bot_refresh_token : Option String := none
  bot_token_expires_at : Option Nat := none
  bot_scopes : Option (List String) := none
  user_token : Option String := none
  user_refresh_token : Option String := none
  user_token_expires_at : Option Nat := none
  user_scopes : Option (List String) := none
deriving DecidableEq, Repr

/-- `toBotInstallationQuery(clientId, q)`: the bot-scoped storage key derived
from a query: `{clientId}/{e}:{t}` with `e = q.enterpriseId ? q.enterpriseId : "_"`
and `t = q.teamId && !q.isEnterpriseInstall ? q.teamId : "_"`. -/
def toBotInstallationQuery (clientId : String) (q : InstallationStoreQuery) : String :=
  let e := if jsTruthy q.enterpriseId then q.enterpriseId.getD "" else "_"
  let t := if jsTruthy q.teamId && !jsTruthyB q.isEnterpriseInstall then q.teamId.getD "" else "_"
  clientId ++ "/" ++ e ++ ":" ++ t

/-- `toUserInstallationQuery(clientId, q)`: the user-scoped storage key derived
from a query: the bot key plus `:{u}` with `u = q.userId ? q.userId : "_"`. -/
def toUserInstallationQuery (clientId : String) (q : InstallationStoreQuery) : String :=
  let e := if jsTruthy q.enterpriseId then q.enterpriseId.getD "" else "_"
  let t := if jsTruthy q.teamId && !jsTruthyB q.isEnterpriseInstall then q.teamId.getD "" else "_"
  let u := if jsTruthy q.userId then q.userId.getD "" else "_"
  clientId ++ "/" ++ e ++ ":" ++ t ++ ":" ++ u

/-- `toBotInstallationKey(clientId, installation)`: the bot-scoped storage key
derived from an installation. Note the source uses the nullish coalescing
operator here (`installation.enterprise_id ?? "_"`), not truthiness. -/
def toBotInstallationKey (clientId : String) (i : Installation) : String :=
  let e := i.enterprise_id.getD "_"
  let t := if jsTruthy i.team_id && !jsTruthyB i.is_enterprise_install then i.team_id.getD "" else "_"
  clientId ++ "/" ++ e ++ ":" ++ t

/-- `toUserInstallationKey(clientId, installation)`: the user-scoped storage key
derived from an installation; `u = installation.user_id ?? "_"` (nullish). -/
def toUserInstallationKey (clientId : String) (i : Installation) : String :=
  let e := i.enterprise_id.getD "_"
  let t := if jsTruthy i.team_id && !jsTruthyB i.is_enterprise_install then i.team_id.getD "" else "_"
  let u := i.user_id.getD "_"
  clientId ++ "/" ++ e ++ ":" ++ t ++ ":" ++ u

/-- The query derived from an installation, as in the spec's save/find symmetry
property: each query field is the corresponding installation field. -/
def queryDerivedFrom (i : Installation) : InstallationStoreQuery :=
  { enterpriseId := i.enterprise_id
    teamId := i.team_id
    userId := i.user_id
    isEnterpriseInstall := i.is_enterprise_install }

/-- C3 counterexample input: an installation whose `enterprise_id` is the empty
string. `?? "_"` keeps `""` while the truthiness test in the query variant
replaces it by `"_"`. -/
def c3BadInstallation : Installation := { enterprise_id := some "" }

/-- C3: the claimed key/query symmetry fails at an installation whose
`enterprise_id` is the empty string: the key is `"C/:_"` while the
query-derived key is `"C/_:_"`. -/
theorem c3_key_query_symmetry_counterexample :
    toBotInstallationKey "C" c3BadInstallation ≠
      toBotInstallationQuery "C" (queryDerivedFrom c3BadInstallation) := by
  decide

/-- C3 (amended): for every client ID and every installation whose
`enterprise_id` and `user_id` are not the empty string, the bot key derived
from the installation equals the bot key derived from the derived query, and
likewise for the user keys. -/
theorem c3_key_query_symmetry (clientId : String) (i : Installation)
    (he : i.enterprise_id ≠ some "") (hu : i.user_id ≠ some "") :
    toBotInstallationKey clientId i = toBotInstallationQuery clientId (queryDerivedFrom i) ∧
    toUserInstallationKey clientId i = toUserInstallationQuery clientId (queryDerivedFrom i) := by
  have hE : i.enterprise_id.getD "_" =
      (if jsTruthy i.enterprise_id then i.enterprise_id.getD "" else "_") := by
    cases hc : i.enterprise_id with
    | none => simp [jsTruthy]
    | some s =>
      have hs : s ≠ "" := by
        intro h
        exact he (by rw [hc, h])
      simp [jsTruthy, hs]
  have hU : i.user_id.getD "_" =
      (if jsTruthy i.user_id then i.user_id.getD "" else "_") := by
    cases hc : i.user_id with
    | none => simp [jsTruthy]
    | some s =>
      have hs : s ≠ "" := by
        intro h
        exact hu (by rw [hc, h])
      simp [jsTruthy, hs]
  constructor
  · simp only [toBotInstallationKey, toBotInstallationQuery, queryDerivedFrom, hE]
  · simp only [toUserInstallationKey, toUserInstallationQuery, queryDerivedFrom, hE, hU]

/-- A concrete installation for the C3 witness. -/
def c3SampleInstallation : Installation :=
  { enterprise_id := some "E1", team_id := some "T1", user_id := some "U1" }

/-- C3 witness: the amended symmetry evaluated at a concrete installation. -/
theorem c3_key_query_symmetry_witness :
    toBotInstallationKey "C1" c3SampleInstallation =
      toBotInstallationQuery "C1" (queryDerivedFrom c3SampleInstallation) ∧
    toUserInstallationKey "C1" c3SampleInstallation =
      toUserInstallationQuery "C1" (queryDerivedFrom c3SampleInstallation) :=
  c3_key_query_symmetry "C1" c3SampleInstallation (by decide) (by decide)

/-! ### The Cloudflare KV namespace, string-level model

The namespace is an association list of keys to raw string values.  `list` is
the cursor-paginated prefix listing of the documented interface:
`list({prefix, cursor?}) -> {keys: [{name}], cursor?, list_complete}`.  The
cursor is an opaque non-empty string; here it encodes how many matching keys
have already been served. -/

/-- A KV namespace state: keys to raw string values. -/
abbrev KVState := List (String × String)

/-- `namespace.get(key)`: the stored value, or absent. -/
def kvGet (st : KVState) (k : String) : Option String :=
  (st.find? (fun p => p.1 == k)).map (fun p => p.2)

/-- `namespace.delete(key)`: remove the binding for `key`. -/
def kvDelete (st : KVState) (k : String) : KVState :=
  st.filter (fun p => !(p.1 == k))

/-- Raw string prefix test (JavaScript `key.startsWith(pfx)`), stated on the
underlying character lists so that it evaluates by structural recursion. -/
def strStartsWith (s pfx : String) : Bool :=
  pfx.data.isPrefixOf s.data

/-- The keys of `st` matching a listing prefix, in listing order. -/
def kvMatching (st : KVState) (pfx : String) : List String :=
  (st.map Prod.fst).filter (fun k => strStartsWith k pfx)

/-- The opaque pagination cursor: a non-empty string encoding an offset. -/
def encodeCursor (i : Nat) : String :=
  String.mk (List.replicate (i + 1) 'c')

/-- Decoding of the opaque pagination cursor. -/
def decodeCursor (s : String) : Nat :=
  s.length - 1

/-- Result shape of `namespace.list`. -/
structure KVListResult where
  keys : List String
  list_complete : Bool
  cursor : Option String
deriving DecidableEq, Repr

/-- `namespace.list({prefix, cursor?})`: one page of at most `pageSize` keys
matching the prefix, starting at the cursor's offset; reports completion and,
when incomplete, the cursor for the next page. -/
def kvList (st : KVState) (pageSize : Nat) (pfx : String) (cursor : Option String) :
    KVListResult :=
  let matching := kvMatching st pfx
  let start := match cursor with
    | none => 0
    | some c => decodeCursor c
  { keys := (matching.drop start).take pageSize
    list_complete := matching.length ≤ start + pageSize
    cursor :=
      if matching.length ≤ start + pageSize then none
      else some (encodeCursor (start + pageSize)) }

/-- One externally visible KV operation, for frame reasoning. -/
inductive KVOp where
  | list (pfx : String) (cursor : Option String)
  | delete (key : String)
deriving DecidableEq, Repr

/-- The `while (cursor)` accumulation loop of `deleteAll` (the store is not
mutated during the loop; deletes happen afterwards).  `fuel` bounds the number
of iterations of the source's unbounded `while`; the JavaScript truthiness
test makes an empty-string cursor terminate the loop. -/
def deleteAllListLoop (st : KVState) (pageSize : Nat) (pfx : String) :
    Nat → Option String → List String → List KVOp → List String × List KVOp
  | 0, _, keys, ops => (keys, ops)
  | _ + 1, none, keys, ops => (keys, ops)
  | fuel + 1, some c, keys, ops =>
    if c = "" then (keys, ops)
    else
      let response := kvList st pageSize pfx (some c)
      let keys := keys ++ response.keys
      let cursor := if response.list_complete then none else response.cursor
      deleteAllListLoop st pageSize pfx fuel cursor keys (ops ++ [KVOp.list pfx (some c)])

/-- Result of `deleteAll`: the final namespace state and the trace of KV
operations it performed. -/
structure DeleteAllResult where
  state : KVState
  ops : List KVOp
deriving DecidableEq, Repr

/-- The key of a delete operation, if it is one. -/
def deleteOpKey : KVOp → Option String
  | KVOp.delete k => some k
  | KVOp.list _ _ => none

/-- The keys deleted by a `deleteAll` run, in order. -/
def DeleteAllResult.deletedKeys (r : DeleteAllResult) : List String :=
  r.ops.filterMap deleteOpKey

/-- `deleteAll(query)`: refuses to act unless `enterpriseId` or `teamId` is
present (truthy); otherwise lists every key under the computed prefix through
the cursor protocol, then deletes each accumulated key. -/
def deleteAll (clientId : String) (pageSize fuel : Nat) (st : KVState)
    (query : InstallationStoreQuery) : DeleteAllResult :=
  if !jsTruthy query.enterpriseId && !jsTruthy query.teamId then
    { state := st, ops := [] }
  else
    let e := if jsTruthy query.enterpriseId then query.enterpriseId.getD "" else "_"
    let pfx :=
      if jsTruthy query.teamId then clientId ++ "/" ++ e ++ ":" ++ query.teamId.getD ""
      else clientId ++ "/" ++ e ++ ":"
    let first := kvList st pageSize pfx none
    let keys0 : List String := [] ++ first.keys
    let collected :=
      if !first.list_complete then
        deleteAllListLoop st pageSize pfx fuel first.cursor keys0 [KVOp.list pfx none]
      else (keys0, [KVOp.list pfx none])
    { state := collected.1.foldl (fun s k => kvDelete s k) st
      ops := collected.2 ++ collected.1.map KVOp.delete }

/-! ### Lemmas about the pagination loop and the delete fold -/

/-- Decoding inverts encoding of the opaque cursor. -/
theorem decodeCursor_encodeCursor (i : Nat) : decodeCursor (encodeCursor i) = i := by
  simp [decodeCursor, encodeCursor, String.length]

/-- The opaque cursor is never the empty string (so it is JS-truthy). -/
theorem encodeCursor_ne_empty (i : Nat) : encodeCursor i ≠ "" := by
  intro h
  have hlen : (encodeCursor i).length = ("" : String).length := by rw [h]
  simp [encodeCursor, String.length] at hlen

/-- With no cursor the accumulation loop returns its accumulators unchanged. -/
theorem deleteAllListLoop_none (st : KVState) (n : Nat) (pfx : String) :
    ∀ fuel keys ops, deleteAllListLoop st n pfx fuel none keys ops = (keys, ops)
  | 0, _, _ => rfl
  | _ + 1, _, _ => rfl

/-- The accumulation loop, entered at offset `i` with the keys before `i`
already accumulated, collects exactly the remaining matching keys, given a
positive page size and enough fuel. -/
theorem deleteAllListLoop_keys (st : KVState) (n : Nat) (pfx : String) (hn : 1 ≤ n) :
    ∀ fuel i acc ops, i < (kvMatching st pfx).length →
      (kvMatching st pfx).length - i + 1 ≤ fuel →
      (deleteAllListLoop st n pfx fuel (some (encodeCursor i)) acc ops).1 =
        acc ++ (kvMatching st pfx).drop i := by
  intro fuel
  induction fuel with
  | zero =>
    intro i acc ops hi hf
    omega
  | succ fuel ih =>
    intro i acc ops hi hf
    rw [deleteAllListLoop, if_neg (encodeCursor_ne_empty i)]
    simp only [kvList, decodeCursor_encodeCursor]
    by_cases hcomp : (kvMatching st pfx).length ≤ i + n
    · simp only [hcomp, decide_True, ite_true]
      rw [deleteAllListLoop_none]
      have hlen : ((kvMatching st pfx).drop i).length ≤ n := by
        rw [List.length_drop]
        omega
      rw [List.take_of_length_le hlen]
    · simp only [hcomp, decide_False, Bool.false_eq_true, ite_false]
      rw [ih (i + n) (acc ++ ((kvMatching st pfx).drop i).take n) _ (by omega) (by omega)]
      rw [List.append_assoc]
      congr 1
      rw [← List.drop_drop, List.take_append_drop]

/-- The accumulation loop performs no deletes: the delete trace of its output
is that of its input. -/
theorem deleteAllListLoop_deletes (st : KVState) (n : Nat) (pfx : String) :
    ∀ fuel cursor keys ops,
      (deleteAllListLoop st n pfx fuel cursor keys ops).2.filterMap deleteOpKey =
        ops.filterMap deleteOpKey := by
  intro fuel
  induction fuel with
  | zero => intro cursor keys ops; rfl
  | succ fuel ih =>
    intro cursor keys ops
    cases cursor with
    | none => rfl
    | some c =>
      rw [deleteAllListLoop]
      by_cases hc : c = ""
      · rw [if_pos hc]
      · rw [if_neg hc]
        rw [ih]
        simp [deleteOpKey]

/-- Folding `kvDelete` over a key list removes exactly the bindings whose key
occurs in the list. -/
theorem foldl_kvDelete_eq_filter (K : List String) :
    ∀ st : KVState, K.foldl (fun s k => kvDelete s k) st =
      st.filter (fun p => !(K.contains p.1)) := by
  induction K with
  | nil =>
    intro st
    simp
  | cons k K ih =>
    intro st
    rw [List.foldl_cons, ih, kvDelete, List.filter_filter]
    apply List.filter_congr
    intro p _
    simp only [List.contains_cons]
    rw [Bool.not_or, Bool.and_comm]

/-- For a binding of the store, membership of its key in the matching list is
exactly the prefix test. -/
theorem contains_kvMatching (st : KVState) (pfx : String) (p : String × String)
    (hp : p ∈ st) : (kvMatching st pfx).contains p.1 = strStartsWith p.1 pfx := by
  by_cases hs : strStartsWith p.1 pfx = true
  · rw [hs]
    have hmem : p.1 ∈ kvMatching st pfx := by
      rw [kvMatching, List.mem_filter]
      exact ⟨List.mem_map_of_mem Prod.fst hp, hs⟩
    exact List.elem_iff.mpr hmem
  · have hb : strStartsWith p.1 pfx = false := by simpa using hs
    rw [hb, Bool.eq_false_iff]
    intro hcon
    have hmem : p.1 ∈ kvMatching st pfx := List.elem_iff.mp hcon
    rw [kvMatching, List.mem_filter] at hmem
    rw [hmem.2] at hb
    exact Bool.noConfusion hb

/-- Extracting delete keys from a trace of pure delete operations is the
identity. -/
theorem filterMap_deleteOpKey_delete (l : List String) :
    l.filterMap (deleteOpKey ∘ KVOp.delete) = l := by
  have h : (deleteOpKey ∘ KVOp.delete) = some := by
    funext k
    rfl
  rw [h, List.filterMap_some]

/-- A `deleteAll` run scoped by team only (no enterprise) collects exactly the
keys matching the prefix `{clientId}/_:{t}` and folds `kvDelete` over them. -/
theorem deleteAll_team_run (clientId t : String) (st : KVState) (pageSize fuel : Nat)
    (q : InstallationStoreQuery) (ht : t ≠ "") (hn : 1 ≤ pageSize)
    (hf : st.length + 1 ≤ fuel) (hqe : q.enterpriseId = none) (hqt : q.teamId = some t) :
    (deleteAll clientId pageSize fuel st q).deletedKeys =
      kvMatching st (clientId ++ "/" ++ "_" ++ ":" ++ t) ∧
    (deleteAll clientId pageSize fuel st q).state =
      (kvMatching st (clientId ++ "/" ++ "_" ++ ":" ++ t)).foldl
        (fun s k => kvDelete s k) st := by
  have hdt : decide (t ≠ "") = true := by simp [ht]
  have hM : (kvMatching st (clientId ++ "/" ++ "_" ++ ":" ++ t)).length ≤ st.length := by
    calc (kvMatching st (clientId ++ "/" ++ "_" ++ ":" ++ t)).length
        ≤ (st.map Prod.fst).length := List.length_filter_le _ _
      _ = st.length := List.length_map _ _
  simp only [deleteAll, hqe, hqt, jsTruthy, hdt, Bool.not_false, Bool.not_true,
    Bool.and_false, Bool.false_eq_true, ite_false, ite_true, Option.getD_some,
    kvList, List.drop_zero, Nat.zero_add]
  by_cases hcomp : (kvMatching st (clientId ++ "/" ++ "_" ++ ":" ++ t)).length ≤ pageSize
  · simp only [hcomp, decide_True, ite_true, Bool.not_true, Bool.false_eq_true, ite_false,
      List.nil_append, DeleteAllResult.deletedKeys, List.filterMap_append,
      List.filterMap_map]
    rw [List.take_of_length_le hcomp]
    exact ⟨filterMap_deleteOpKey_delete _, rfl⟩
  · simp only [hcomp, decide_False, ite_false, Bool.not_false, Bool.false_eq_true, ite_true,
      List.nil_append, DeleteAllResult.deletedKeys, List.filterMap_append]
    rw [deleteAllListLoop_deletes, deleteAllListLoop_keys st pageSize _ hn fuel pageSize
      (List.take pageSize (kvMatching st (clientId ++ "/" ++ "_" ++ ":" ++ t)))
      [KVOp.list (clientId ++ "/" ++ "_" ++ ":" ++ t) none] (by omega) (by omega)]
    rw [List.take_append_drop]
    constructor
    · rw [List.filterMap_map]
      exact filterMap_deleteOpKey_delete _
    · rfl

/-- C2: for every store state and every query with a teamId `t` and no
enterpriseId, `deleteAll` deletes exactly the keys starting with
`{clientId}/_:{t}` — the delete trace lists every matching key exactly once
(no omission, no duplicate, across any number of list pages), and the final
state is the original state with exactly those keys removed. -/
theorem c2_deleteAll_team_scope (clientId t : String) (st : KVState)
    (pageSize fuel : Nat) (q : InstallationStoreQuery)
    (ht : t ≠ "") (hn : 1 ≤ pageSize) (hf : st.length + 1 ≤ fuel)
    (hnd : (st.map Prod.fst).Nodup)
    (hqe : q.enterpriseId = none) (hqt : q.teamId = some t) :
    (deleteAll clientId pageSize fuel st q).deletedKeys =
      (st.map Prod.fst).filter
        (fun k => strStartsWith k (clientId ++ "/" ++ "_" ++ ":" ++ t)) ∧
    (deleteAll clientId pageSize fuel st q).deletedKeys.Nodup ∧
    (deleteAll clientId pageSize fuel st q).state =
      st.filter (fun p => !(strStartsWith p.1 (clientId ++ "/" ++ "_" ++ ":" ++ t))) := by
  obtain ⟨hkeys, hstate⟩ :=
    deleteAll_team_run clientId t st pageSize fuel q ht hn hf hqe hqt
  refine ⟨hkeys, ?_, ?_⟩
  · rw [hkeys]
    exact hnd.filter _
  · rw [hstate, foldl_kvDelete_eq_filter]
    apply List.filter_congr
    intro p hp
    rw [contains_kvMatching st _ p hp]

/-- C2 witness: a store whose five team-`T1`-prefixed keys span three pages of
size two; `deleteAll({teamId:"T1"})` removes exactly them. -/
theorem c2_deleteAll_team_scope_witness :
    (deleteAll "C" 2 8
        [("C/_:T1", "v1"), ("C/_:T1:U1", "v2"), ("C/_:T1:U2", "v3"),
         ("C/_:T10", "v4"), ("C/_:T1:U3", "v5"), ("C/_:T2", "v6"), ("X", "v7")]
        { teamId := some "T1" }).deletedKeys =
      (([("C/_:T1", "v1"), ("C/_:T1:U1", "v2"), ("C/_:T1:U2", "v3"),
         ("C/_:T10", "v4"), ("C/_:T1:U3", "v5"), ("C/_:T2", "v6"),
         ("X", "v7")] : KVState).map Prod.fst).filter
        (fun k => strStartsWith k ("C" ++ "/" ++ "_" ++ ":" ++ "T1")) ∧
    (deleteAll "C" 2 8
        [("C/_:T1", "v1"), ("C/_:T1:U1", "v2"), ("C/_:T1:U2", "v3"),
         ("C/_:T10", "v4"), ("C/_:T1:U3", "v5"), ("C/_:T2", "v6"), ("X", "v7")]
        { teamId := some "T1" }).deletedKeys.Nodup ∧
    (deleteAll "C" 2 8
        [("C/_:T1", "v1"), ("C/_:T1:U1", "v2"), ("C/_:T1:U2", "v3"),
         ("C/_:T10", "v4"), ("C/_:T1:U3", "v5"), ("C/_:T2", "v6"), ("X", "v7")]
        { teamId := some "T1" }).state =
      ([("C/_:T1", "v1"), ("C/_:T1:U1", "v2"), ("C/_:T1:U2", "v3"),
        ("C/_:T10", "v4"), ("C/_:T1:U3", "v5"), ("C/_:T2", "v6"),
        ("X", "v7")] : KVState).filter
        (fun p => !(strStartsWith p.1 ("C" ++ "/" ++ "_" ++ ":" ++ "T1"))) :=
  c2_deleteAll_team_scope "C" "T1"
    [("C/_:T1", "v1"), ("C/_:T1:U1", "v2"), ("C/_:T1:U2", "v3"),
     ("C/_:T10", "v4"), ("C/_:T1:U3", "v5"), ("C/_:T2", "v6"), ("X", "v7")]
    2 8 { teamId := some "T1" } (by decide) (by decide) (by decide) (by decide)
    rfl rfl

/-- C8: `deleteAll` with a query whose `enterpriseId` and `teamId` are both
absent (falsy) performs no KV operation at all and returns the state
unchanged. -/
theorem c8_deleteAll_unscoped_noop (clientId : String) (pageSize fuel : Nat)
    (st : KVState) (q : InstallationStoreQuery)
    (he : jsTruthy q.enterpriseId = false) (ht : jsTruthy q.teamId = false) :
    deleteAll clientId pageSize fuel st q = { state := st, ops := [] } := by
  simp [deleteAll, he, ht]

/-- C8 witness: `deleteAll` with the empty query leaves a concrete store
untouched and performs no operation. -/
theorem c8_deleteAll_unscoped_noop_witness :
    deleteAll "C" 2 5 [("C/_:T1", "v")] {} =
      { state := [("C/_:T1", "v")], ops := [] } :=
  c8_deleteAll_unscoped_noop "C" 2 5 [("C/_:T1", "v")] {} rfl rfl

/-- C10 store contents: installations of two teams, where one team ID is a
proper string prefix of the other. -/
def c10State : KVState :=
  [("C/_:T1", "teamT1"), ("C/_:T10", "teamT10"), ("C/_:T10:U1", "teamT10user")]

/-- C10: `deleteAll({teamId:"T1"})` also deletes the keys of the distinct team
`T10`, because the deletion prefix `C/_:T1` has no trailing separator and so
matches `C/_:T10...` by raw string prefix. -/
theorem c10_deleteAll_prefix_collision :
    "T1" ≠ "T10" ∧
    strStartsWith "T10" "T1" = true ∧
    toBotInstallationKey "C" { team_id := some "T10" } ∈
      (deleteAll "C" 10 5 c10State { teamId := some "T1" }).deletedKeys ∧
    kvGet (deleteAll "C" 10 5 c10State { teamId := some "T1" }).state
      (toBotInstallationKey "C" { team_id := some "T10" }) = none := by
  decide

/-! ### `JSON.parse`, modelled by an executable JSON parser

`findBotInstallation` / `findUserInstallation` run `JSON.parse` on the stored
string without a catch: a payload that is not valid JSON makes the lookup
throw.  `JSON.parse` also performs no shape validation, so the parsed value is
an arbitrary JSON document.  Numbers are kept as their validated lexemes (the
numeric value is never consumed by this component). -/

/-- A JSON document. -/
inductive Js where
  | null
  | boolean (b : Bool)
  | number (lexeme : String)
  | string (s : String)
  | array (elems : List Js)
  | object (fields : List (String × Js))

/-- JSON whitespace skipping. -/
def skipWs : List Char → List Char
  | c :: cs => if c = ' ' ∨ c = '\t' ∨ c = '\n' ∨ c = '\r' then skipWs cs else c :: cs
  | [] => []

/-- A hexadecimal digit's value. -/
def hexDigit (c : Char) : Option Nat :=
  if '0' ≤ c ∧ c ≤ '9' then some (c.toNat - '0'.toNat)
  else if 'a' ≤ c ∧ c ≤ 'f' then some (c.toNat - 'a'.toNat + 10)
  else if 'A' ≤ c ∧ c ≤ 'F' then some (c.toNat - 'A'.toNat + 10)
  else none

/-- Body of a JSON string literal (after the opening quote): contents and the
remainder after the closing quote.  Fails on an unterminated literal, an
unknown escape, or an unescaped control character. -/
def parseStringBody : Nat → List Char → Option (String × List Char)
  | 0, _ => none
  | _ + 1, [] => none
  | fuel + 1, c :: cs =>
    if c = '"' then some ("", cs)
    else if c = '\\' then
      match cs with
      | [] => none
      | e :: cs1 =>
        let dec : Option (Char × List Char) :=
          if e = '"' then some ('"', cs1)
          else if e = '\\' then some ('\\', cs1)
          else if e = '/' then some ('/', cs1)
          else if e = 'b' then some (Char.ofNat 8, cs1)
          else if e = 'f' then some (Char.ofNat 12, cs1)
          else if e = 'n' then some ('\n', cs1)
          else if e = 'r' then some ('\r', cs1)
          else if e = 't' then some ('\t', cs1)
          else if e = 'u' then
            match cs1 with
            | h1 :: h2 :: h3 :: h4 :: rest =>
              match hexDigit h1, hexDigit h2, hexDigit h3, hexDigit h4 with
              | some a, some b, some c2, some d =>
                some (Char.ofNat (((a * 16 + b) * 16 + c2) * 16 + d), rest)
              | _, _, _, _ => none
            | _ => none
          else none
        match dec with
        | some (ch, rest) =>
          match parseStringBody fuel rest with
          | some (s, rem) => some (String.mk (ch :: s.data), rem)
          | none => none
        | none => none
    else if c.toNat < 32 then none
    else
      match parseStringBody fuel cs with
      | some (s, rem) => some (String.mk (c :: s.data), rem)
      | none => none

/-- Longest digit run at the head of the input. -/
def takeDigits : List Char → List Char × List Char
  | c :: cs =>
    if c.isDigit then
      let r := takeDigits cs
      (c :: r.1, r.2)
    else ([], c :: cs)
  | [] => ([], [])

/-- Optional fraction part of a JSON number. -/
def parseFrac : List Char → Option (List Char × List Char)
  | '.' :: rest =>
    let r := takeDigits rest
    if r.1.isEmpty then none else some ('.' :: r.1, r.2)
  | cs => some ([], cs)

/-- Optional exponent part of a JSON number. -/
def parseExp : List Char → Option (List Char × List Char)
  | e :: rest =>
    if e = 'e' ∨ e = 'E' then
      let sr : List Char × List Char :=
        match rest with
        | '+' :: r => (['+'], r)
        | '-' :: r => (['-'], r)
        | _ => ([], rest)
      let dr := takeDigits sr.2
      if dr.1.isEmpty then none else some (e :: (sr.1 ++ dr.1), dr.2)
    else some ([], e :: rest)
  | [] => some ([], [])

/-- A JSON number lexeme: `-? (0 | [1-9][0-9]*) frac? exp?`. -/
def parseNumber (cs : List Char) : Option (String × List Char) :=
  let mr : List Char × List Char :=
    match cs with
    | '-' :: rest => (['-'], rest)
    | _ => ([], cs)
  match mr.2 with
  | [] => none
  | c :: rest =>
    let intPart : Option (List Char × List Char) :=
      if c = '0' then some ([c], rest)
      else if c.isDigit then
        let dr := takeDigits rest
        some (c :: dr.1, dr.2)
      else none
    match intPart with
    | none => none
    | some (ip, r1) =>
      match parseFrac r1 with
      | none => none
      | some (fp, r2) =>
        match parseExp r2 with
        | none => none
        | some (ep, r3) => some (String.mk (mr.1 ++ ip ++ fp ++ ep), r3)

mutual

/-- One JSON value (leading whitespace allowed), and the remaining input. -/
def parseValue : Nat → List Char → Option (Js × List Char)
  | 0, _ => none
  | fuel + 1, cs =>
    match skipWs cs with
    | [] => none
    | c :: rest =>
      if c = 'n' then
        match rest with
        | 'u' :: 'l' :: 'l' :: r => some (Js.null, r)
        | _ => none
      else if c = 't' then
        match rest with
        | 'r' :: 'u' :: 'e' :: r => some (Js.boolean true, r)
        | _ => none
      else if c = 'f' then
        match rest with
        | 'a' :: 'l' :: 's' :: 'e' :: r => some (Js.boolean false, r)
        | _ => none
      else if c = '"' then
        match parseStringBody (rest.length + 1) rest with
        | some (s, r) => some (Js.string s, r)
        | none => none
      else if c = '[' then parseArrayRest fuel (skipWs rest)
      else if c = '{' then parseObjectRest fuel (skipWs rest)
      else if c = '-' ∨ c.isDigit then
        match parseNumber (c :: rest) with
        | some (lex, r) => some (Js.number lex, r)
        | none => none
      else none

/-- The inside of an array, after `[` and leading whitespace. -/
def parseArrayRest : Nat → List Char → Option (Js × List Char)
  | 0, _ => none
  | fuel + 1, cs =>
    match cs with
    | ']' :: r => some (Js.array [], r)
    | _ =>
      match parseElems fuel cs with
      | some (vs, r) => some (Js.array vs, r)
      | none => none

/-- One or more comma-separated array elements, up to the closing `]`. -/
def parseElems : Nat → List Char → Option (List Js × List Char)
  | 0, _ => none
  | fuel + 1, cs =>
    match parseValue fuel cs with
    | none => none
    | some (v, r) =>
      match skipWs r with
      | ',' :: r2 =>
        match parseElems fuel r2 with
        | some (vs, r3) => some (v :: vs, r3)
        | none => none
      | ']' :: r2 => some ([v], r2)
      | _ => none

/-- The inside of an object, after `{` and leading whitespace. -/
def parseObjectRest : Nat → List Char → Option (Js × List Char)
  | 0, _ => none
  | fuel + 1, cs =>
    match cs with
    | '}' :: r => some (Js.object [], r)
    | _ =>
      match parseMembers fuel cs with
      | some (ms, r) => some (Js.object ms, r)
      | none => none

/-- One or more comma-separated object members, up to the closing `}`. -/
def parseMembers : Nat → List Char → Option (List (String × Js) × List Char)
  | 0, _ => none
  | fuel + 1, cs =>
    match skipWs cs with
    | '"' :: r =>
      match parseStringBody (r.length + 1) r with
      | none => none
      | some (k, r1) =>
        match skipWs r1 with
        | ':' :: r2 =>
          match parseValue fuel r2 with
          | none => none
          | some (v, r3) =>
            match skipWs r3 with
            | ',' :: r4 =>
              match parseMembers fuel r4 with
              | some (ms, r5) => some ((k, v) :: ms, r5)
              | none => none
            | '}' :: r4 => some ([(k, v)], r4)
            | _ => none
        | _ => none
    | _ => none

end

/-- `JSON.parse`: parse a complete JSON document; `none` models the thrown
`SyntaxError`.  The fuel is an upper bound on the recursion depth, generous
enough that it is never exhausted on an input of this length. -/
def jsParse (s : String) : Option Js :=
  match parseValue (3 * s.data.length + 3) s.data with
  | some (v, rest) =>
    match skipWs rest with
    | [] => some v
    | _ => none
  | none => none

/-- `findBotInstallation(query)`: get the stored string at the bot key; if it
is truthy, return `JSON.parse` of it (propagating the `SyntaxError` when the
payload is not valid JSON — there is no catch in the source), else return
`undefined`. -/
def findBotInstallation (clientId : String) (st : KVState)
    (q : InstallationStoreQuery) : Except Unit (Option Js) :=
  match kvGet st (toBotInstallationQuery clientId q) with
  | some storedString =>
    if storedString ≠ "" then
      match jsParse storedString with
      | some v => Except.ok (some v)
      | none => Except.error ()
    else Except.ok none
  | none => Except.ok none

/-- `findUserInstallation(query)`: as `findBotInstallation`, at the user key. -/
def findUserInstallation (clientId : String) (st : KVState)
    (q : InstallationStoreQuery) : Except Unit (Option Js) :=
  match kvGet st (toUserInstallationQuery clientId q) with
  | some storedString =>
    if storedString ≠ "" then
      match jsParse storedString with
      | some v => Except.ok (some v)
      | none => Except.error ()
    else Except.ok none
  | none => Except.ok none

/-- C4 (amended, miss part): when nothing is stored at the derived key, both
lookups return `undefined` and no exception escapes. -/
theorem c4_find_miss_returns_undefined (clientId : String) (st : KVState)
    (q : InstallationStoreQuery)
    (hb : kvGet st (toBotInstallationQuery clientId q) = none)
    (hu : kvGet st (toUserInstallationQuery clientId q) = none) :
    findBotInstallation clientId st q = Except.ok none ∧
    findUserInstallation clientId st q = Except.ok none := by
  rw [findBotInstallation, findUserInstallation, hb, hu]
  exact ⟨rfl, rfl⟩

/-- C4 witness: lookups on the empty store. -/
theorem c4_find_miss_returns_undefined_witness :
    findBotInstallation "C" [] {} = Except.ok none ∧
    findUserInstallation "C" [] {} = Except.ok none :=
  c4_find_miss_returns_undefined "C" [] {} rfl rfl

/-- A store whose payloads are not valid JSON (the bot key of the empty query
is `C/_:_`, the user key `C/_:_:_`). -/
def c4BadStore : KVState := [("C/_:_", "\x7b"), ("C/_:_:_", "not json")]

/-- C4 counterexample: on an unreadable stored payload the lookups throw
(`JSON.parse`'s error propagates) instead of returning `undefined`, refuting
the claim that a lookup never surfaces an exception and treats an unreadable
payload as absent. -/
theorem c4_find_unreadable_counterexample :
    findBotInstallation "C" c4BadStore {} = Except.error () ∧
    findUserInstallation "C" c4BadStore {} = Except.error () :=
  ⟨rfl, rfl⟩

/-! ### Header maps and the serializable Slack API response

A platform `Headers` value stores header names lowercased; `get` is therefore
case-insensitive.  `toSerializableSlackAPIResponse` flattens the header map
with `Object.fromEntries(headers.entries())`; `fromSerializableSlackAPIResponse`
rebuilds it with `new Headers(record)`, whose constructor appends each entry
(combining duplicate names).  The remaining response fields are split off by
the TS rest-spread and pass through untouched; they are the type parameter. -/

/-- Lowercasing of a header name, on the character list (so that it evaluates
by structural recursion). -/
def strToLower (s : String) : String :=
  String.mk (s.data.map Char.toLower)

/-- The platform header map: entries with lowercased names. -/
structure Headers where
  entries : List (String × String)
deriving DecidableEq, Repr

/-- `headers.get(name)`: case-insensitive lookup (names are stored lowercased). -/
def Headers.get (h : Headers) (name : String) : Option String :=
  (h.entries.find? (fun p => p.1 == strToLower name)).map (fun p => p.2)

/-- `headers.append(name, value)` as performed by the `Headers` constructor:
lowercases the name and combines with an existing entry. -/
def headersAppend (l : List (String × String)) (name value : String) :
    List (String × String) :=
  let k := strToLower name
  if l.any (fun p => p.1 == k) then
    l.map (fun p => if p.1 == k then (p.1, p.2 ++ ", " ++ value) else p)
  else l ++ [(k, value)]

/-- `new Headers(record)`: append each record entry in order. -/
def Headers.ofRecord (record : List (String × String)) : Headers :=
  ⟨record.foldl (fun acc p => headersAppend acc p.1 p.2) []⟩

/-- JavaScript object insertion: last write wins, first-insertion key order. -/
def objectSet (l : List (String × String)) (k v : String) : List (String × String) :=
  if l.any (fun p => p.1 == k) then
    l.map (fun p => if p.1 == k then (p.1, v) else p)
  else l ++ [(k, v)]

/-- `Object.fromEntries(pairs)`. -/
def objectFromEntries (ps : List (String × String)) : List (String × String) :=
  ps.foldl (fun acc p => objectSet acc p.1 p.2) []

/-- A Slack API response split as the source splits it: the non-serializable
`headers` map, and every other field (`...rest`), opaque to this component. -/
structure SlackAPIResponseM (ρ : Type) where
  rest : ρ
  headers : Headers
deriving DecidableEq, Repr

/-- `SerializableSlackAPIResponse`: headers flattened to a plain record. -/
structure SerializableSlackAPIResponse (ρ : Type) where
  rest : ρ
  headers : List (String × String)
deriving DecidableEq, Repr

/-- `toSerializableSlackAPIResponse(response)`. -/
def toSerializableSlackAPIResponse {ρ : Type} (r : SlackAPIResponseM ρ) :
    SerializableSlackAPIResponse ρ :=
  { rest := r.rest, headers := objectFromEntries r.headers.entries }

/-- `fromSerializableSlackAPIResponse(response)`. -/
def fromSerializableSlackAPIResponse {ρ : Type} (s : SerializableSlackAPIResponse ρ) :
    SlackAPIResponseM ρ :=
  { rest := s.rest, headers := Headers.ofRecord s.headers }

/-- Keys of an association list, after head-insertions, stay disjoint from a
key known to be fresh: auxiliary `any`-is-false fact. -/
theorem assoc_any_eq_false (acc : List (String × String)) (k : String)
    (hk : k ∉ acc.map Prod.fst) : acc.any (fun p => p.1 == k) = false := by
  rw [Bool.eq_false_iff]
  intro hcon
  rw [List.any_eq_true] at hcon
  obtain ⟨p, hp, hpk⟩ := hcon
  exact hk (List.mem_map.mpr ⟨p, hp, by simpa using hpk⟩)

/-- `Object.fromEntries` folded over entries with globally distinct keys
reproduces the entries. -/
theorem objectFromEntries_go (l : List (String × String)) :
    ∀ acc : List (String × String),
      (acc.map Prod.fst ++ l.map Prod.fst).Nodup →
      l.foldl (fun acc p => objectSet acc p.1 p.2) acc = acc ++ l := by
  induction l with
  | nil =>
    intro acc _
    simp
  | cons kv l ih =>
    intro acc hnd
    have hmem : kv.1 ∉ acc.map Prod.fst := by
      intro hin
      have hdisj := List.disjoint_of_nodup_append hnd
      exact hdisj hin (by simp)
    have hset : objectSet acc kv.1 kv.2 = acc ++ [kv] := by
      rw [objectSet, assoc_any_eq_false acc kv.1 hmem, if_neg (by simp)]
    rw [List.foldl_cons, hset, ih (acc ++ [kv]) (by simpa using hnd)]
    simp

/-- `Object.fromEntries` on a record with distinct keys is the identity. -/
theorem objectFromEntries_eq_self (l : List (String × String))
    (hnd : (l.map Prod.fst).Nodup) : objectFromEntries l = l := by
  have h := objectFromEntries_go l [] (by simpa using hnd)
  simpa [objectFromEntries] using h

/-- The `Headers` constructor fold, on entries with lowercased distinct names,
appends without combining. -/
theorem ofRecord_go (l : List (String × String)) :
    ∀ acc : List (String × String),
      (∀ p ∈ l, strToLower p.1 = p.1) →
      (acc.map Prod.fst ++ l.map Prod.fst).Nodup →
      l.foldl (fun acc p => headersAppend acc p.1 p.2) acc = acc ++ l := by
  induction l with
  | nil =>
    intro acc _ _
    simp
  | cons kv l ih =>
    intro acc hlc hnd
    have hlck : strToLower kv.1 = kv.1 := hlc kv (by simp)
    have hmem : kv.1 ∉ acc.map Prod.fst := by
      intro hin
      have hdisj := List.disjoint_of_nodup_append hnd
      exact hdisj hin (by simp)
    have happ : headersAppend acc kv.1 kv.2 = acc ++ [kv] := by
      rw [headersAppend]
      simp only [hlck]
      rw [assoc_any_eq_false acc kv.1 hmem, if_neg (by simp)]
    rw [List.foldl_cons, happ,
      ih (acc ++ [kv]) (fun p hp => hlc p (by simp [hp])) (by simpa using hnd)]
    simp

/-- `new Headers(record)` on a lowercased, duplicate-free record reproduces it. -/
theorem ofRecord_normalized (l : List (String × String))
    (hlc : ∀ p ∈ l, strToLower p.1 = p.1) (hnd : (l.map Prod.fst).Nodup) :
    Headers.ofRecord l = ⟨l⟩ := by
  have h := ofRecord_go l [] hlc (by simpa using hnd)
  simp only [Headers.ofRecord]
  rw [h]
  rfl

/-- C7: for every API response whose header map is platform-normalized (names
lowercased and unique, as `fetch` produces them), serializing and
deserializing preserves every non-header field unchanged and yields a header
collection equivalent to the original under (case-insensitive) `get`. -/
theorem c7_serializable_roundtrip {ρ : Type} (r : SlackAPIResponseM ρ)
    (hlc : ∀ p ∈ r.headers.entries, strToLower p.1 = p.1)
    (hnd : (r.headers.entries.map Prod.fst).Nodup) :
    (fromSerializableSlackAPIResponse (toSerializableSlackAPIResponse r)).rest = r.rest ∧
    ∀ name, (fromSerializableSlackAPIResponse (toSerializableSlackAPIResponse r)).headers.get
        name = r.headers.get name := by
  have h1 : objectFromEntries r.headers.entries = r.headers.entries :=
    objectFromEntries_eq_self r.headers.entries hnd
  have h2 : Headers.ofRecord r.headers.entries = ⟨r.headers.entries⟩ :=
    ofRecord_normalized r.headers.entries hlc hnd
  refine ⟨rfl, fun name => ?_⟩
  simp only [fromSerializableSlackAPIResponse, toSerializableSlackAPIResponse, h1, h2]

/-- A concrete response for the C7 witness. -/
def c7SampleResponse : SlackAPIResponseM String :=
  { rest := "payload"
    headers := ⟨[("x-oauth-scopes", "chat:write,commands"),
                 ("content-type", "application/json")]⟩ }

/-- C7 witness: the round-trip at a concrete response with two headers. -/
theorem c7_serializable_roundtrip_witness :
    (fromSerializableSlackAPIResponse (toSerializableSlackAPIResponse c7SampleResponse)).rest =
      c7SampleResponse.rest ∧
    ∀ name,
      (fromSerializableSlackAPIResponse
        (toSerializableSlackAPIResponse c7SampleResponse)).headers.get name =
      c7SampleResponse.headers.get name :=
  c7_serializable_roundtrip c7SampleResponse (by decide) (by decide)

/-! ### The `toAuthorize` orchestration

The installation namespace is modelled at the decoded level here: a stored
cell either yields an `Installation` or the error its `JSON.parse` would
throw (the string-level behaviour of that parse is established above).  The
token rotator and the API client's `auth.test` endpoint are external
collaborators whose per-run behaviour is a `AuthWorld`. -/

/-- A thrown JavaScript value: either an arbitrary collaborator error (carried
as its display string) or an `AuthorizeError`. -/
inductive JsErr where
  | external (message : String)
  | authorizeError (message : String)
deriving DecidableEq, Repr

/-- The display string of a thrown value, as interpolated by a template
literal. -/
def errString : JsErr → String
  | JsErr.external m => m
  | JsErr.authorizeError m => m

/-- One side of a rotation exchange: `{access_token, refresh_token,
token_expires_at}`, with runtime-optional fields (the source applies `!`
non-null assertions, which do not check at runtime). -/
structure TokenSet where
  access_token : Option String := none
  refresh_token : Option String := none
  token_expires_at : Option Nat := none
deriving DecidableEq, Repr

/-- `performRotation`'s parameter and result shape: `{bot?, user?}`. -/
structure RotationParams where
  bot : Option TokenSet := none
  user : Option TokenSet := none
deriving DecidableEq, Repr

/-- The non-header fields of an `auth.test` response used by this component. -/
structure AuthTestRest where
  ok : Bool := false
  error : Option String := none
  team : Option String := none
  url : Option String := none
  bot_id : Option String := none
  user_id : Option String := none
  user : Option String := none
deriving DecidableEq, Repr

/-- An `auth.test` response: the rest fields plus the header map. -/
abbrev AuthTestResponse := SlackAPIResponseM AuthTestRest

/-- One auth.test cache cell: the serialized response its `JSON.parse` yields
(or the error that parse would throw), plus the TTL it was written with. -/
structure CacheEntry where
  value : Except JsErr (SerializableSlackAPIResponse AuthTestRest)
  expirationTtl : Option Int

/-- The store's immutable configuration: the environment fields it reads and
the cache options fixed at construction. -/
structure StoreConfig where
  SLACK_CLIENT_ID : String
  SLACK_USER_TOKEN_RESOLUTION : Option String := none
  authTestCacheEnabled : Bool := false
  authTestCacheHasNamespace : Bool := false
  authTestCacheExpirationSecs : Int := 600

/-- The request context fields consumed by the authorize callable. -/
structure RequestContext where
  isEnterpriseInstall : Option Bool := none
  enterpriseId : Option String := none
  teamId : Option String := none
  userId : Option String := none
  actorEnterpriseId : Option String := none
  actorTeamId : Option String := none
  actorUserId : Option String := none
deriving DecidableEq, Repr

/-- Per-run behaviour of the external collaborators: the token rotator, and
the API client's `auth.test` endpoint as a function of the token the client
was constructed with. -/
structure AuthWorld where
  performRotation : RotationParams → Except JsErr (Option RotationParams)
  authTestApi : Option String → Except JsErr AuthTestResponse

/-- Mutable state across one authorize run: the installation namespace
(decoded cells) and the auth.test cache namespace. -/
structure StoreState where
  storage : List (String × Except JsErr Installation)
  cache : List (String × CacheEntry)

/-- Association-list lookup (`namespace.get`). -/
def lookupCell {α : Type} (l : List (String × α)) (k : String) : Option α :=
  (l.find? (fun p => p.1 == k)).map (fun p => p.2)

/-- Association-list overwrite (`namespace.put`). -/
def putCell {α : Type} (l : List (String × α)) (k : String) (v : α) :
    List (String × α) :=
  if l.any (fun p => p.1 == k) then
    l.map (fun p => if p.1 == k then (k, v) else p)
  else l ++ [(k, v)]

/-- `findBotInstallation(query)` over the decoded-cell storage: an absent cell
is `undefined`; a cell whose deserialization fails throws. -/
def findBotInstallationM (cfg : StoreConfig) (st : StoreState)
    (q : InstallationStoreQuery) : Except JsErr (Option Installation) :=
  match lookupCell st.storage (toBotInstallationQuery cfg.SLACK_CLIENT_ID q) with
  | some (Except.ok i) => Except.ok (some i)
  | some (Except.error e) => Except.error e
  | none => Except.ok none

/-- `findUserInstallation(query)` over the decoded-cell storage. -/
def findUserInstallationM (cfg : StoreConfig) (st : StoreState)
    (q : InstallationStoreQuery) : Except JsErr (Option Installation) :=
  match lookupCell st.storage (toUserInstallationQuery cfg.SLACK_CLIENT_ID q) with
  | some (Except.ok i) => Except.ok (some i)
  | some (Except.error e) => Except.error e
  | none => Except.ok none

/-- `save(installation)`: write the installation under its bot key and then
its user key. -/
def saveM (cfg : StoreConfig) (st : StoreState) (i : Installation) : StoreState :=
  let s1 := putCell st.storage (toBotInstallationKey cfg.SLACK_CLIENT_ID i) (Except.ok i)
  let s2 := putCell s1 (toUserInstallationKey cfg.SLACK_CLIENT_ID i) (Except.ok i)
  { st with storage := s2 }

/-- `callAuthTest(client, token)`: when the cache is enabled, a namespace is
configured and the token is truthy, look the token up in the cache; on a hit
deserialize and return it; on a miss call the endpoint and — only for an ok,
error-free response — write the serialized response with the configured TTL
(no TTL option when the configured TTL is ≤ 0).  Otherwise call the endpoint
directly. -/
def callAuthTest (cfg : StoreConfig) (w : AuthWorld) (st : StoreState)
    (clientToken token : Option String) :
    Except JsErr AuthTestResponse × StoreState :=
  if jsTruthy token && cfg.authTestCacheEnabled && cfg.authTestCacheHasNamespace then
    match lookupCell st.cache (token.getD "") with
    | some entry =>
      match entry.value with
      | Except.ok s => (Except.ok (fromSerializableSlackAPIResponse s), st)
      | Except.error e => (Except.error e, st)
    | none =>
      match w.authTestApi clientToken with
      | Except.error e => (Except.error e, st)
      | Except.ok r =>
        if r.rest.ok && !jsTruthy r.rest.error then
          let s := toSerializableSlackAPIResponse r
          let permanentCacheEnabled := cfg.authTestCacheExpirationSecs ≤ 0
          let entry : CacheEntry :=
            { value := Except.ok s
              expirationTtl :=
                if permanentCacheEnabled then none
                else some cfg.authTestCacheExpirationSecs }
          (Except.ok r, { st with cache := putCell st.cache (token.getD "") entry })
        else (Except.ok r, st)
  else (w.authTestApi clientToken, st)

/-- The result shape assembled by the authorize callable (fields the source
asserts non-null with `!` stay runtime-optional). -/
structure AuthorizeResult where
  enterpriseId : Option String := none
  teamId : Option String := none
  team : Option String := none
  url : Option String := none
  botId : Option String := none
  botUserId : Option String := none
  botToken : Option String := none
  botScopes : List String := []
  userId : Option String := none
  user : Option String := none
  userToken : Option String := none
  userScopes : Option (List String) := none
deriving DecidableEq, Repr

/-- Minimal JSON string escaping (quote and backslash). -/
def jsonEscape (s : String) : String :=
  String.mk (s.data.foldr (fun c acc =>
    if c = '"' then '\\' :: '"' :: acc
    else if c = '\\' then '\\' :: '\\' :: acc
    else c :: acc) [])

/-- Comma-joining for serialized object members. -/
def joinComma : List String → String
  | [] => ""
  | [x] => x
  | x :: xs => x ++ "," ++ joinComma xs

/-- `JSON.stringify(query)`: fields in declaration order, skipping the
undefined ones. -/
def stringifyQuery (q : InstallationStoreQuery) : String :=
  let fields :=
    (match q.isEnterpriseInstall with
     | some b => [("isEnterpriseInstall", if b then "true" else "false")]
     | none => []) ++
    (match q.enterpriseId with
     | some s => [("enterpriseId", "\"" ++ jsonEscape s ++ "\"")]
     | none => []) ++
    (match q.teamId with
     | some s => [("teamId", "\"" ++ jsonEscape s ++ "\"")]
     | none => []) ++
    (match q.userId with
     | some s => [("userId", "\"" ++ jsonEscape s ++ "\"")]
     | none => [])
  "\x7b" ++ joinComma (fields.map (fun p => "\"" ++ p.1 ++ "\":" ++ p.2)) ++ "\x7d"

/-- The message of the `AuthorizeError` thrown by the catch block. -/
def authorizeErrorMessage (e : JsErr) (query : InstallationStoreQuery) : String :=
  "Failed to authorize (error: " ++ errString e ++ ", query: " ++
    stringifyQuery query ++ ")"

/-- The query the authorize callable builds from the request context. -/
def contextQuery (req : RequestContext) : InstallationStoreQuery :=
  { isEnterpriseInstall := req.isEnterpriseInstall
    enterpriseId := req.enterpriseId
    teamId := req.teamId
    userId := req.userId }

/-- The `try` block of the authorize callable: bot lookup, bot rotation and
re-save, bot `auth.test`, user lookup (note: the source builds `userQuery`
from the actor identity when the resolution policy is not `"installer"`, but
then passes `query` — not `userQuery` — to `findUserInstallation`), user
rotation and re-save, user `auth.test`, and result assembly.  Returns the
result or the first thrown error, with the state as mutated so far. -/
def toAuthorizeBody (cfg : StoreConfig) (w : AuthWorld) (req : RequestContext)
    (st : StoreState) : Except JsErr AuthorizeResult × StoreState :=
  let query := contextQuery req
  match findBotInstallationM cfg st query with
  | Except.error e => (Except.error e, st)
  | Except.ok botFound =>
    let rotated : Except JsErr (Option Installation × StoreState) :=
      match botFound with
      | some bot =>
        if jsTruthy bot.bot_refresh_token then
          match w.performRotation
              { bot := some { access_token := bot.bot_token
                              refresh_token := bot.bot_refresh_token
                              token_expires_at := bot.bot_token_expires_at } } with
          | Except.error e => Except.error e
          | Except.ok maybeRefreshed =>
            match maybeRefreshed with
            | some mr =>
              match mr.bot with
              | some nb =>
                let bot1 := { bot with
                  bot_token := nb.access_token
                  bot_refresh_token := nb.refresh_token
                  bot_token_expires_at := nb.token_expires_at }
                Except.ok (some bot1, saveM cfg st bot1)
              | none => Except.ok (some bot, st)
            | none => Except.ok (some bot, st)
        else Except.ok (some bot, st)
      | none => Except.ok (none, st)
    match rotated with
    | Except.error e => (Except.error e, st)
    | Except.ok (bot, st1) =>
      let botClientToken := bot.bind (fun b => b.bot_token)
      match callAuthTest cfg w st1 botClientToken (bot.bind (fun b => b.bot_token)) with
      | (Except.error e, st2) => (Except.error e, st2)
      | (Except.ok botAuthTest, st2) =>
        let botScopes :=
          match (botAuthTest.headers.get "x-oauth-scopes").map (fun s => s.splitOn ",") with
          | some l => l
          | none =>
            match bot.bind (fun b => b.bot_scopes) with
            | some l => l
            | none => []
        let userQuery : InstallationStoreQuery :=
          if cfg.SLACK_USER_TOKEN_RESOLUTION ≠ some "installer" then
            { query with
                enterpriseId := req.actorEnterpriseId
                teamId := req.actorTeamId
                userId := req.actorUserId }
          else query
        match findUserInstallationM cfg st2 query with
        | Except.error e => (Except.error e, st2)
        | Except.ok userFound =>
          let rotatedUser : Except JsErr (Option Installation × StoreState) :=
            match userFound with
            | some user =>
              if jsTruthy user.user_refresh_token then
                match w.performRotation
                    { user := some { access_token := user.user_token
                                     refresh_token := user.user_refresh_token
                                     token_expires_at := user.user_token_expires_at } } with
                | Except.error e => Except.error e
                | Except.ok maybeRefreshed =>
                  match maybeRefreshed with
                  | some mr =>
                    match mr.user with
                    | some nu =>
                      let user1 := { user with
                        user_token := nu.access_token
                        user_refresh_token := nu.refresh_token
                        user_token_expires_at := nu.token_expires_at }
                      Except.ok (some user1, saveM cfg st2 user1)
                    | none => Except.ok (some user, st2)
                  | none => Except.ok (some user, st2)
              else Except.ok (some user, st2)
            | none => Except.ok (none, st2)
          match rotatedUser with
          | Except.error e => (Except.error e, st2)
          | Except.ok (user, st3) =>
            let afterUserAuthTest : Except JsErr (Option AuthTestResponse) × StoreState :=
              match user with
              | some u =>
                match callAuthTest cfg w st3 botClientToken u.user_token with
                | (Except.error e, st4) => (Except.error e, st4)
                | (Except.ok r, st4) => (Except.ok (some r), st4)
              | none => (Except.ok none, st3)
            match afterUserAuthTest with
            | (Except.error e, st4) => (Except.error e, st4)
            | (Except.ok userAuthTest, st4) =>
              (Except.ok
                { enterpriseId := bot.bind (fun b => b.enterprise_id)
                  teamId := bot.bind (fun b => b.team_id)
                  team := botAuthTest.rest.team
                  url := botAuthTest.rest.url
                  botId := botAuthTest.rest.bot_id
                  botUserId := botAuthTest.rest.user_id
                  botToken := bot.bind (fun b => b.bot_token)
                  botScopes := botScopes
                  userId := user.bind (fun u => u.user_id)
                  user := userAuthTest.bind (fun r => r.rest.user)
                  userToken := user.bind (fun u => u.user_token)
                  userScopes := user.bind (fun u => u.user_scopes) }, st4)

/-- `toAuthorize()`: the returned callable; any error thrown by the body is
caught and re-thrown as a single `AuthorizeError` whose message interpolates
the original error and the stringified query. -/
def toAuthorize (cfg : StoreConfig) (w : AuthWorld) (req : RequestContext)
    (st : StoreState) : Except JsErr AuthorizeResult × StoreState :=
  match toAuthorizeBody cfg w req st with
  | (Except.ok res, st1) => (Except.ok res, st1)
  | (Except.error e, st1) =>
    (Except.error (JsErr.authorizeError (authorizeErrorMessage e (contextQuery req))), st1)

/-- C9: any error escaping the authorize callable is a single
`AuthorizeError` whose message interpolates some original thrown error and the
stringified query being resolved; no other error shape escapes. -/
theorem c9_authorize_error_wrapping (cfg : StoreConfig) (w : AuthWorld)
    (req : RequestContext) (st st1 : StoreState) (err : JsErr)
    (h : toAuthorize cfg w req st = (Except.error err, st1)) :
    ∃ e : JsErr,
      err = JsErr.authorizeError (authorizeErrorMessage e (contextQuery req)) := by
  rw [toAuthorize] at h
  cases hb : toAuthorizeBody cfg w req st with
  | mk r st2 =>
    rw [hb] at h
    cases r with
    | ok res => simp at h
    | error e =>
      simp only [Prod.mk.injEq, Except.error.injEq] at h
      exact ⟨e, h.1.symm⟩

/-- The configuration for the C9 witness run. -/
def c9Config : StoreConfig := { SLACK_CLIENT_ID := "C" }

/-- A world whose auth.test endpoint throws. -/
def c9World : AuthWorld :=
  { performRotation := fun _ => Except.ok none
    authTestApi := fun _ => Except.error (JsErr.external "boom") }

/-- An empty store state. -/
def c9EmptyState : StoreState := { storage := [], cache := [] }

/-- C9 witness: a run whose auth.test call throws surfaces exactly the
wrapped `AuthorizeError`. -/
theorem c9_authorize_error_wrapping_witness :
    ∃ e : JsErr,
      JsErr.authorizeError
          (authorizeErrorMessage (JsErr.external "boom") (contextQuery {})) =
        JsErr.authorizeError (authorizeErrorMessage e (contextQuery {})) :=
  c9_authorize_error_wrapping c9Config c9World {} c9EmptyState c9EmptyState
    (JsErr.authorizeError
      (authorizeErrorMessage (JsErr.external "boom") (contextQuery {})))
    rfl

/-- C5: when the stored bot installation has a refresh token but the rotator
resolves to nothing, the authorize callable does not throw and its result
keeps the original stored bot token (run with the auth.test cache disabled, a
successful bot auth.test and no stored user installation). -/
theorem c5_rotation_none_keeps_token (cfg : StoreConfig) (w : AuthWorld)
    (req : RequestContext) (st : StoreState) (bot : Installation)
    (r : AuthTestResponse)
    (hbot : lookupCell st.storage
      (toBotInstallationQuery cfg.SLACK_CLIENT_ID (contextQuery req)) =
      some (Except.ok bot))
    (hrt : jsTruthy bot.bot_refresh_token = true)
    (hrot : w.performRotation
      { bot := some { access_token := bot.bot_token
                      refresh_token := bot.bot_refresh_token
                      token_expires_at := bot.bot_token_expires_at } } =
      Except.ok none)
    (hcache : cfg.authTestCacheEnabled = false)
    (hapi : w.authTestApi bot.bot_token = Except.ok r)
    (huser : lookupCell st.storage
      (toUserInstallationQuery cfg.SLACK_CLIENT_ID (contextQuery req)) = none) :
    ∃ res : AuthorizeResult,
      (toAuthorize cfg w req st).1 = Except.ok res ∧
      res.botToken = bot.bot_token := by
  simp only [toAuthorize, toAuthorizeBody, findBotInstallationM, findUserInstallationM,
    callAuthTest, hbot, huser, hrt, hrot, hcache, Bool.and_false, Bool.false_and,
    Bool.false_eq_true, ite_false, ite_true, Option.some_bind, hapi]
  exact ⟨_, rfl, rfl⟩

/-- The stored bot installation for the C5 witness. -/
def c5Bot : Installation :=
  { team_id := some "T1"
    bot_token := some "xoxb-original"
    bot_refresh_token := some "xoxe-refresh"
    bot_token_expires_at := some 1234 }

/-- The store state for the C5 witness: the bot installation under the bot key
of the empty query. -/
def c5State : StoreState :=
  { storage := [("C/_:_", Except.ok c5Bot)], cache := [] }

/-- A world whose rotator resolves to nothing and whose auth.test succeeds. -/
def c5World : AuthWorld :=
  { performRotation := fun _ => Except.ok none
    authTestApi := fun _ =>
      Except.ok { rest := { ok := true, bot_id := some "B1", user_id := some "W1" }
                  headers := ⟨[]⟩ } }

/-- The configuration for the C5 witness run. -/
def c5Config : StoreConfig := { SLACK_CLIENT_ID := "C" }

/-- C5 witness: the no-rotation run at concrete inputs keeps the stored
token. -/
theorem c5_rotation_none_keeps_token_witness :
    ∃ res : AuthorizeResult,
      (toAuthorize c5Config c5World {} c5State).1 = Except.ok res ∧
      res.botToken = c5Bot.bot_token :=
  c5_rotation_none_keeps_token c5Config c5World {} c5State c5Bot
    { rest := { ok := true, bot_id := some "B1", user_id := some "W1" }
      headers := ⟨[]⟩ }
    rfl rfl rfl rfl rfl rfl

/-- C6: with the cache enabled, a namespace configured and a token given, a
cache miss followed by an upstream response that is failed or carries an
error is returned to the caller unchanged while nothing is written: the whole
state, cache included, is untouched. -/
theorem c6_failed_auth_test_never_cached (cfg : StoreConfig) (w : AuthWorld)
    (st : StoreState) (clientToken : Option String) (t : String)
    (r : AuthTestResponse)
    (ht : t ≠ "")
    (hen : cfg.authTestCacheEnabled = true)
    (hns : cfg.authTestCacheHasNamespace = true)
    (hmiss : lookupCell st.cache t = none)
    (hapi : w.authTestApi clientToken = Except.ok r)
    (hbad : ¬(r.rest.ok = true ∧ jsTruthy r.rest.error = false)) :
    callAuthTest cfg w st clientToken (some t) = (Except.ok r, st) := by
  have hdt : jsTruthy (some t) = true := by simp [jsTruthy, ht]
  have hcond : (r.rest.ok && !jsTruthy r.rest.error) = false := by
    cases hok : r.rest.ok <;> cases herr : jsTruthy r.rest.error <;> simp_all
  simp only [callAuthTest, hdt, hen, hns, Bool.and_true, Bool.true_and, ite_true,
    Option.getD_some, hmiss, hapi, hcond, Bool.false_eq_true, ite_false]

/-- The failed auth.test response for the C6 witness. -/
def c6BadResponse : AuthTestResponse :=
  { rest := { ok := false, error := some "invalid_auth" }, headers := ⟨[]⟩ }

/-- A world whose auth.test returns the failed response. -/
def c6World : AuthWorld :=
  { performRotation := fun _ => Except.ok none
    authTestApi := fun _ => Except.ok c6BadResponse }

/-- The cache-enabled configuration for the C6 witness. -/
def c6Config : StoreConfig :=
  { SLACK_CLIENT_ID := "C"
    authTestCacheEnabled := true
    authTestCacheHasNamespace := true }

/-- C6 witness: the failed response is returned and the empty cache stays
empty. -/
theorem c6_failed_auth_test_never_cached_witness :
    callAuthTest c6Config c6World c9EmptyState (some "xoxb-token") (some "xoxb-token") =
      (Except.ok c6BadResponse, c9EmptyState) := by
  exact c6_failed_auth_test_never_cached c6Config c6World c9EmptyState
    (some "xoxb-token") "xoxb-token" c6BadResponse (by decide) rfl rfl rfl rfl
    (by decide)

/-- The configuration for the C1 run: the user-token resolution policy is not
`"installer"`. -/
def c1Config : StoreConfig :=
  { SLACK_CLIENT_ID := "C", SLACK_USER_TOKEN_RESOLUTION := some "actor" }

/-- The request context for the C1 run: the acting user `U2` differs from the
installing user `U1`. -/
def c1Request : RequestContext :=
  { teamId := some "T1", userId := some "U1"
    actorTeamId := some "T1", actorUserId := some "U2" }

/-- The installing user's stored user installation. -/
def c1InstallerInstallation : Installation :=
  { team_id := some "T1", user_id := some "U1", user_token := some "xoxp-installer" }

/-- The acting user's stored user installation. -/
def c1ActorInstallation : Installation :=
  { team_id := some "T1", user_id := some "U2", user_token := some "xoxp-actor" }

/-- The store state for the C1 run: a bot installation plus both user
installations. -/
def c1State : StoreState :=
  { storage :=
      [("C/_:T1", Except.ok { team_id := some "T1", bot_token := some "xoxb-bot" }),
       ("C/_:T1:U1", Except.ok c1InstallerInstallation),
       ("C/_:T1:U2", Except.ok c1ActorInstallation)]
    cache := [] }

/-- A world with a quiet rotator and a succeeding auth.test. -/
def c1World : AuthWorld :=
  { performRotation := fun _ => Except.ok none
    authTestApi := fun _ =>
      Except.ok { rest := { ok := true, bot_id := some "B1", user_id := some "W1" }
                  headers := ⟨[]⟩ } }

/-- The actor-identity query the claim says the user lookup should use. -/
def c1ActorQuery : InstallationStoreQuery :=
  { contextQuery c1Request with
      enterpriseId := c1Request.actorEnterpriseId
      teamId := c1Request.actorTeamId
      userId := c1Request.actorUserId }

/-- C1: although the resolution policy is not `"installer"` and the acting
user's installation is stored under the actor-identity key, the authorize run
returns the *installer's* user token: the source builds `userQuery` from the
actor identity but then passes `query` to `findUserInstallation`. -/
theorem c1_user_lookup_ignores_actor_identity :
    c1Config.SLACK_USER_TOKEN_RESOLUTION ≠ some "installer" ∧
    (toAuthorize c1Config c1World c1Request c1State).1.map
        (fun res => res.userToken) = Except.ok (some "xoxp-installer") ∧
    lookupCell c1State.storage (toUserInstallationQuery "C" c1ActorQuery) =
      some (Except.ok c1ActorInstallation) ∧
    c1ActorInstallation.user_token = some "xoxp-actor" := by
  exact ⟨by decide, rfl, rfl, rfl⟩

end SlackKV
